import Mathlib

/-!
Verification of the tournament runner in `src/competition.py` and the
example agent `Opeth` in `src/opeth.py` of the `resistance` repository.

The statistics accumulator (`util.Variable`) and the game engine
(`game.py`, `player.py`) are not part of the staged sources; where a
definition depends on them it is modelled from the spec and says so in
its doc comment.  Everything else is translated directly from the two
Python files.
-/

/-- Modelled from the spec: `util.Variable` (util.py is not under `src/`);
the spec's RunningStatistic/RunningEstimator is "a (sum, count) pair for a
named metric"; `sample(value)` updates `sum += value; count += 1`;
`estimate()` returns `sum/count`, or 0 if `count == 0`.  The field names
`total` (the sum) and `samples` (the count) follow their uses in
`src/competition.py`.  Every value sampled in `src/competition.py` is
`int(bool)`, so samples are naturals here. -/
structure Variable where
  total : Nat
  samples : Nat
deriving DecidableEq

/-- Modelled from the spec: `sample` folds one value into the pair. -/
def Variable.sample (v : Variable) (x : Nat) : Variable :=
  ⟨v.total + x, v.samples + 1⟩

/-- Modelled from the spec: `estimate() = sum/count`, 0 when `count = 0`. -/
def Variable.estimate (v : Variable) : Rat :=
  if v.samples = 0 then 0 else (v.total : Rat) / (v.samples : Rat)

/-- `CompetitionStatistics.__init__` (src/competition.py lines 11-19):
seven fresh accumulators per agent name. -/
structure CompetitionStatistics where
  resWins : Variable
  spyWins : Variable
  votesRes : Variable
  votesSpy : Variable
  spyVoted : Variable
  spySelected : Variable
  selections : Variable
deriving DecidableEq

/-- `CompetitionStatistics()`: all accumulators start at (0, 0). -/
def CompetitionStatistics.init : CompetitionStatistics :=
  ⟨⟨0, 0⟩, ⟨0, 0⟩, ⟨0, 0⟩, ⟨0, 0⟩, ⟨0, 0⟩, ⟨0, 0⟩, ⟨0, 0⟩⟩

/-- `CompetitionStatistics.total` (src/competition.py line 22), verbatim:
`Variable(self.resWins.total + self.spyWins.total, self.resWins.samples + self.spyWins.total)`. -/
def CompetitionStatistics.total (s : CompetitionStatistics) : Variable :=
  ⟨s.resWins.total + s.spyWins.total, s.resWins.samples + s.spyWins.total⟩

/-- A player instance as the competition code reads it: a stable index, the
agent name the statistics table is keyed by, and the assigned role
(`player.spy`).  Distinct roster members have distinct indices. -/
structure Player where
  index : Nat
  name : String
  spy : Bool
deriving DecidableEq

/-- The global `statistics` dictionary (src/competition.py line 8), keyed by
agent name.  A missing key is represented by the zero record
`CompetitionStatistics.init`, which is exactly the entry
`statistics.setdefault(name, CompetitionStatistics())` creates on first
observation; `setdefault` is therefore the identity in this representation. -/
def Stats : Type := String → CompetitionStatistics

/-- The table at program start: no samples folded for any name. -/
def Stats.init : Stats := fun _ => CompetitionStatistics.init

/-- `statistics[n].<field> = f(statistics[n].<field>)`: update one name's
record in place, leaving every other entry untouched. -/
def updateStat (stats : Stats) (n : String) (f : CompetitionStatistics → CompetitionStatistics) : Stats :=
  fun m => if m = n then f (stats m) else stats m

/-- The trailing loop of `CompetitionRound.onPlayerVoted`
(src/competition.py lines 44-47): each spy on the proposed team gets one
`spyVoted` sample equal to `int(vote)`. -/
def spyVotedFold (vote : Bool) (spies : List Player) (stats : Stats) : Stats :=
  spies.foldl
    (fun st spy =>
      updateStat st spy.name
        (fun s => { s with spyVoted := s.spyVoted.sample (if vote then 1 else 0) }))
    stats

/-- `CompetitionRound.onPlayerVoted` (src/competition.py lines 27-47).
Spy voters are ignored; a resistance voter folds one `votesRes` sample
(`int(vote)`) when the team has no spy, otherwise one `votesSpy` sample
(`int(not vote)`); then every spy on the team gets a `spyVoted` sample of
`int(vote)`.  The `leader` argument is unused, as in the source. -/
def CompetitionRound.onPlayerVoted (stats : Stats) (player : Player) (vote : Bool)
    (leader : Player) (team : List Player) : Stats :=
  if player.spy then stats
  else
    let spies := team.filter (fun t => t.spy)
    let stats1 :=
      if spies.isEmpty then
        updateStat stats player.name
          (fun s => { s with votesRes := s.votesRes.sample (if vote then 1 else 0) })
      else
        updateStat stats player.name
          (fun s => { s with votesSpy := s.votesSpy.sample (if vote then 0 else 1) })
    spyVotedFold vote spies stats1

/-- `CompetitionRound.onPlayerSelected` (src/competition.py lines 49-62).
Spy selectors are ignored; a resistance selector folds one `selections`
sample (`int(len(spies) == 0)`); then every spy in the game (`self.bots`)
gets a `spySelected` sample of `int(bot in team)`. -/
def CompetitionRound.onPlayerSelected (stats : Stats) (player : Player)
    (team : List Player) (bots : List Player) : Stats :=
  if player.spy then stats
  else
    let spies := team.filter (fun t => t.spy)
    let stats1 :=
      updateStat stats player.name
        (fun s => { s with selections := s.selections.sample (if spies.isEmpty then 1 else 0) })
    bots.foldl
      (fun st bot =>
        if bot.spy then
          updateStat st bot.name
            (fun s => { s with spySelected := s.spySelected.sample (if team.contains bot then 1 else 0) })
        else st)
      stats1

/-- The per-game win/loss fold of `CompetitionRunner.main`
(src/competition.py lines 90-97) for one roster member `b`: a spy's
`spyWins` gets `int(not g.won)`, a resistance member's `resWins` gets
`int(g.won)` (`won` = the Resistance won the game). -/
def foldGameBot (won : Bool) (stats : Stats) (b : Player) : Stats :=
  updateStat stats b.name
    (fun s =>
      if b.spy then { s with spyWins := s.spyWins.sample (if won then 0 else 1) }
      else { s with resWins := s.resWins.sample (if won then 1 else 0) })

/-- The whole `for b in g.bots` loop of `CompetitionRunner.main`
(src/competition.py lines 90-97). -/
def foldGame (won : Bool) (stats : Stats) (bots : List Player) : Stats :=
  bots.foldl (foldGameBot won) stats

/-- `random.choice(l)` driven by an explicit random draw `r`: the element at
index `r % len(l)`; `none` models the `IndexError` the call raises on an
empty list. -/
def randomChoice {α : Type} (l : List α) (r : Nat) : Option α :=
  l[r % l.length]?

/-- `CompetitionRunner.pickPlayersForRound` (src/competition.py lines 72-77):
`[random.choice(self.competitors) for x in range(0,5)]`, five independent
draws from the injected random source `rand`; `none` models the
`IndexError` raised on an empty pool. -/
def pickPlayersForRound {α : Type} (competitors : List α) (rand : Nat → Nat) : Option (List α) :=
  (List.range 5).mapM (fun x => randomChoice competitors (rand x))

example : pickPlayersForRound [10, 20, 30] (fun i => i) = some [10, 20, 30, 10, 20] := by
  decide

example : pickPlayersForRound ([] : List Nat) (fun i => i) = none := by
  decide

/-- How one run of `CompetitionRunner.main` (src/competition.py lines 79-99)
ends: the loop completes all rounds, a `KeyboardInterrupt`/`SystemExit`
arrives between games, or `random.choice` raises `IndexError` on an empty
pool. -/
inductive RunOutcome where
  | completed
  | interrupted
  | indexError
deriving DecidableEq

/-- What a run of `CompetitionRunner.main` leaves behind: how it ended, the
global `statistics` at that moment, and how many games were constructed
(`CompetitionRunner.play`, src/competition.py lines 101-106, constructs one
game per loop iteration). -/
structure MainResult where
  outcome : RunOutcome
  stats : Stats
  gamesConstructed : Nat

/-- The rounds loop of `CompetitionRunner.main` (src/competition.py lines
85-99).  Modelled from the spec where it leaves `src/`: one iteration picks
five players from the pool, constructs and runs one `GameEngine` to
completion (`game.py` is not under `src/`; `gameRound ps` abstracts the
statistics updates of that game's callbacks together with the win/loss fold
of lines 90-97), and continues.  `stopAfter = some k` models a
user-requested stop (`KeyboardInterrupt`/`SystemExit`) arriving after `k`
further games; `none` models an undisturbed run.  `g` counts the games
constructed so far and indexes the random source, so that an interrupted
run plays the same prefix of games as a shorter run. -/
def mainLoop {α : Type} (competitors : List α) (rand : Nat → Nat → Nat)
    (gameRound : List α → Stats → Stats) :
    Option Nat → Nat → Nat → Stats → MainResult
  | _, 0, g, s => ⟨.completed, s, g⟩
  | some 0, _ + 1, g, s => ⟨.interrupted, s, g⟩
  | none, n + 1, g, s =>
    match pickPlayersForRound competitors (rand g) with
    | none => ⟨.indexError, s, g⟩
    | some ps => mainLoop competitors rand gameRound none n (g + 1) (gameRound ps s)
  | some (k + 1), n + 1, g, s =>
    match pickPlayersForRound competitors (rand g) with
    | none => ⟨.indexError, s, g⟩
    | some ps => mainLoop competitors rand gameRound (some k) n (g + 1) (gameRound ps s)

/-- The `try/except (KeyboardInterrupt, SystemExit)/finally` block of
`__main__` (src/competition.py lines 152-157): whatever way `main` ended,
the `finally` clause runs `runner.show()`, which reads the global
`statistics` as accumulated; an interrupt is swallowed by the `except`
clause, so the report is the program's normal ending in that case. -/
def finalReport (r : MainResult) : Stats :=
  r.stats

/-- One statistics-mutating event of a tournament, as dispatched onto the
global table by `src/competition.py`: a vote callback (lines 27-47), a
selection callback (lines 49-62), or the end-of-game win/loss fold (lines
90-97). -/
inductive StatsOp where
  | playerVoted (player : Player) (vote : Bool) (leader : Player) (team : List Player)
  | playerSelected (player : Player) (team : List Player) (bots : List Player)
  | gameFinished (won : Bool) (bots : List Player)

/-- Dispatch one event onto the statistics table. -/
def StatsOp.apply (stats : Stats) : StatsOp → Stats
  | .playerVoted p v l t => CompetitionRound.onPlayerVoted stats p v l t
  | .playerSelected p t bs => CompetitionRound.onPlayerSelected stats p t bs
  | .gameFinished w bs => foldGame w stats bs

/-- A whole tournament's worth of statistics events, applied in order. -/
def applyOps (stats : Stats) (ops : List StatsOp) : Stats :=
  ops.foldl StatsOp.apply stats

/-- A Python dict keyed by players, as `Opeth.my_guess`/`their_guess` use
it: an association list of (player, confidence) pairs. -/
abbrev Guess : Type := List (Player × Int)

/-- Dict lookup `d[p]`.  Python raises `KeyError` on a missing key; in the
flows modelled here every lookup happens after `onGameRevealed` has keyed
the full roster, so the `0` default is never reached on those flows. -/
def Guess.get (d : Guess) (p : Player) : Int :=
  match d.find? (fun q => q.1 == p) with
  | some q => q.2
  | none => 0

/-- Dict update `d[p] += v` (so also `-= `): rewrite the entry in place; a
missing key (a Python `KeyError`) leaves the dict unchanged. -/
def Guess.add (d : Guess) (p : Player) (v : Int) : Guess :=
  d.map (fun q => if q.1 == p then (q.1, q.2 + v) else q)

/-- Python set `s.add(p)`: sets are modelled as duplicate-free lists in
insertion order. -/
def setAdd (s : List Player) (p : Player) : List Player :=
  if p ∈ s then s else s ++ [p]

/-- The instance-visible attributes of one `Opeth` bot (src/opeth.py lines
22-41): its own player identity (`self`, whose `spy` flag is the assigned
role), and the scratch attributes `spy_spies`, `my_guess`, `their_guess`.
Assignments like `self.spy_spies = spies` create these per-instance; before
the first assignment they hold the class-attribute defaults `None`,
`dict()`, `dict()`.  The fourth scratch attribute, `spies_for_sure`, is
*never* assigned through `self`, only mutated via `self.spies_for_sure.add`,
so every instance keeps reading (and writing) the single class-level set:
it lives in `OpethClass`, not here. -/
structure Opeth where
  self : Player
  spy_spies : Option (List Player)
  my_guess : Guess
  their_guess : Guess
deriving DecidableEq

/-- A freshly constructed `Opeth` instance: every scratch attribute still
refers to the class-attribute default (src/opeth.py lines 25-41). -/
def Opeth.fresh (p : Player) : Opeth :=
  ⟨p, none, [], []⟩

/-- The class-level state shared by every `Opeth` instance in the process:
the one `spies_for_sure` set object of src/opeth.py line 41, which
`onMissionComplete` mutates in place and nothing ever rebinds. -/
structure OpethClass where
  spies_for_sure : List Player
deriving DecidableEq

/-- The process starts with the class attribute `spies_for_sure = set()`. -/
def OpethClass.init : OpethClass :=
  ⟨[]⟩

/-- `Opeth.onGameRevealed` (src/opeth.py lines 43-52): overwrites
`spy_spies` with the revealed spy list and both guess dicts with
`dict(zip(players, [0] * 5))`.  It does not touch the class-level
`spies_for_sure`. -/
def Opeth.onGameRevealed (o : Opeth) (players : List Player) (spies : List Player) : Opeth :=
  { o with
    spy_spies := some spies
    my_guess := players.zip (List.replicate 5 0)
    their_guess := players.zip (List.replicate 5 0) }

/-- `Opeth.onMissionComplete` (src/opeth.py lines 174-205), with
`self.game.team` passed explicitly as `team`.  Three blocks in source
order: a fully sabotaged team is marked down 100 and added to
`spies_for_sure`; a team the resistance-role `self` sat on whose every
other member sabotaged is marked likewise in `my_guess`; then every team
member loses `sabotaged` confidence on a failed mission or gains 1 on a
clean one. -/
def Opeth.onMissionComplete (cls : OpethClass) (o : Opeth) (team : List Player)
    (sabotaged : Nat) : OpethClass × Opeth :=
  let step1 : OpethClass × Opeth :=
    if team.length = sabotaged then
      team.foldl
        (fun acc spy =>
          (⟨setAdd acc.1.spies_for_sure spy⟩,
           { acc.2 with
             my_guess := acc.2.my_guess.add spy (-100)
             their_guess := acc.2.their_guess.add spy (-100) }))
        (cls, o)
    else (cls, o)
  let step2 : OpethClass × Opeth :=
    if ¬o.self.spy ∧ o.self ∈ team ∧ (sabotaged : Int) = (team.length : Int) - 1 then
      team.foldl
        (fun acc spy =>
          if o.self ≠ spy then
            (⟨setAdd acc.1.spies_for_sure spy⟩,
             { acc.2 with my_guess := acc.2.my_guess.add spy (-100) })
          else acc)
        step1
    else step1
  let inst3 : Opeth :=
    team.foldl
      (fun b player =>
        if sabotaged ≠ 0 then
          { b with
            my_guess := b.my_guess.add player (-(sabotaged : Int))
            their_guess := b.their_guess.add player (-(sabotaged : Int)) }
        else
          { b with
            my_guess := b.my_guess.add player 1
            their_guess := b.their_guess.add player 1 })
      step2.2
  (step2.1, inst3)

/-- `Opeth.onGameComplete` (src/opeth.py lines 207-212): `pass`.  Nothing
is discarded or reset - in particular not the class-level
`spies_for_sure`. -/
def Opeth.onGameComplete (cls : OpethClass) (o : Opeth) (win : Bool)
    (spies : List Player) : OpethClass × Opeth :=
  (cls, o)

/-- Python's `sorted` is a stable sort; it is modelled by stable insertion:
`insertSorted le a l` places `a` before the first element `b` of `l` with
`le a b`. -/
def insertSorted {α : Type} (le : α → α → Bool) (a : α) : List α → List α
  | [] => [a]
  | b :: l => if le a b then a :: b :: l else b :: insertSorted le a l

/-- `sorted(l, key=...)`, folding `insertSorted` from the right so that
elements with equal keys keep their original order, as Python guarantees. -/
def pySorted {α : Type} (le : α → α → Bool) : List α → List α
  | [] => []
  | a :: l => insertSorted le a (pySorted le l)

/-- `Opeth.getPlayersITrust` (src/opeth.py lines 214-220): sort the roster
by `my_guess` descending, drop `self`, take the first `n`. -/
def Opeth.getPlayersITrust (o : Opeth) (players : List Player) (n : Nat) : List Player :=
  ((pySorted (fun a b => decide (o.my_guess.get b ≤ o.my_guess.get a)) players).erase o.self).take n

/-- `Opeth.getPlayersIDontTrust` (src/opeth.py lines 222-225): sort the
roster by `my_guess` ascending, drop `self`, take the first `n`. -/
def Opeth.getPlayersIDontTrust (o : Opeth) (players : List Player) (n : Nat) : List Player :=
  ((pySorted (fun a b => decide (o.my_guess.get a ≤ o.my_guess.get b)) players).erase o.self).take n

/-- `Opeth.getPlayersTheyTrust` (src/opeth.py lines 227-229): sort the
roster by `their_guess` descending, take the first `n` (without dropping
`self`). -/
def Opeth.getPlayersTheyTrust (o : Opeth) (players : List Player) (n : Nat) : List Player :=
  (pySorted (fun a b => decide (o.their_guess.get b ≤ o.their_guess.get a)) players).take n

/-- `Opeth.getPlayersTheyDontTrust` (src/opeth.py lines 231-233): sort the
roster by `their_guess` ascending, take the first `n` (without dropping
`self`). -/
def Opeth.getPlayersTheyDontTrust (o : Opeth) (players : List Player) (n : Nat) : List Player :=
  (pySorted (fun a b => decide (o.their_guess.get a ≤ o.their_guess.get b)) players).take n

/-- `Opeth.select` (src/opeth.py lines 63-82), with `self.game.players`
passed explicitly as `players`.  Resistance: the `count - 1` most trusted
others plus `self`.  Spy: the `count` players they trust least; if `self`
is not among them, `team[count - 1] = self`. -/
def Opeth.select (o : Opeth) (players : List Player) (count : Nat) : List Player :=
  if ¬o.self.spy then
    o.getPlayersITrust players (count - 1) ++ [o.self]
  else
    let team := o.getPlayersTheyDontTrust players count
    if o.self ∈ team then team else team.set (count - 1) o.self

/-- The sabotage-coordination logic of `Opeth.sabotage` after its first
`return` statement (src/opeth.py lines 152-172), translated as if it were
reachable: `some r` means "the block returns `r`".  `spy_spies` is read
with a `[]` default (in Python a `None` value there would raise), and
`spies[0]` with a `self` default (in Python an empty list there would
raise); on the block's own control flow neither default is reached, and
the block always returns. -/
def Opeth.sabotageCoordination (o : Opeth) (team : List Player) (leader : Player) : Option Bool :=
  let spies := team.filter (fun s => (o.spy_spies.getD []).contains s)
  if spies.length > 1 then
    if o.self = leader then some false
    else if spies.contains leader then some true
    else
      let spies2 := spies.erase o.self
      some (decide (o.self.index > (spies2.headD o.self).index))
  else some true

/-- `Opeth.sabotage` (src/opeth.py lines 144-172), with `self.game.team`
and `self.game.leader` passed explicitly.  Python runs a function body top
to bottom until the first `return`: `some r` stands for "returned `r`".
The body's first statement (line 151) is `return True`, so the
coordination block behind it (modelled by `Opeth.sabotageCoordination`) is
only consulted if the first statement were to fall through - which it
never does.  The final `getD true` is unreachable: some statement always
returns. -/
def Opeth.sabotage (o : Opeth) (team : List Player) (leader : Player) : Bool :=
  ((some true).orElse (fun _ => o.sabotageCoordination team leader)).getD true

/-! ## Theorems -/

/-- C10: for every game state, `Opeth.sabotage` returns `True`: the
first statement of its body is `return True`, so the coordination logic
behind it (lines 152-172, present in the definition through
`Opeth.sabotageCoordination`) is unreachable and never affects the
returned value. -/
theorem sabotage_always_true (o : Opeth) (team : List Player) (leader : Player) :
    Opeth.sabotage o team leader = true :=
  rfl

/-- A concrete statistics record: one resistance game, lost
(`resWins = (0, 1)`), two spy games, one won (`spyWins = (1, 2)`). -/
def mixedRecord : CompetitionStatistics :=
  { CompetitionStatistics.init with resWins := ⟨1, 1⟩, spyWins := ⟨0, 2⟩ }

/-- C3: `CompetitionStatistics.total` adds the two sums correctly, but its
count is `resWins.samples + spyWins.total` - the spy-win *sum* where the
spy-win *count* belongs.  On `mixedRecord` (1 resistance game won, 2 spy
games lost: 3 games, 1 win) it reports 1 sample instead of 3 and an
estimate of 1 instead of 1/3. -/
theorem total_mixes_sum_into_count :
    (mixedRecord.total).total = mixedRecord.resWins.total + mixedRecord.spyWins.total ∧
    (mixedRecord.total).samples = 1 ∧
    mixedRecord.resWins.samples + mixedRecord.spyWins.samples = 3 ∧
    (mixedRecord.total).estimate = 1 := by
  refine ⟨rfl, rfl, rfl, ?_⟩
  show Variable.estimate ⟨1, 1⟩ = 1
  simp [Variable.estimate]

/-- `random.choice` on a non-empty list returns the element its draw
selects. -/
theorem randomChoice_ne_nil {α : Type} (l : List α) (r : Nat) (h : l ≠ []) :
    randomChoice l r = some (l.get ⟨r % l.length, Nat.mod_lt _ (List.length_pos.mpr h)⟩) := by
  have hlt : r % l.length < l.length := Nat.mod_lt _ (List.length_pos.mpr h)
  simp [randomChoice, List.getElem?_eq_getElem hlt]

/-- On a non-empty pool the five draws are the five indexed choices. -/
theorem pickPlayersForRound_ne_nil {α : Type} (competitors : List α) (rand : Nat → Nat)
    (h : competitors ≠ []) :
    pickPlayersForRound competitors rand =
      some ((List.range 5).map fun x =>
        competitors.get ⟨rand x % competitors.length, Nat.mod_lt _ (List.length_pos.mpr h)⟩) := by
  simp only [pickPlayersForRound, show List.range 5 = [0, 1, 2, 3, 4] from rfl,
    randomChoice_ne_nil _ _ h]
  rfl

/-- C5: on every non-empty pool, `pickPlayersForRound` returns a roster of
exactly 5 elements, each a member of the pool, and element `i` is the
pool entry at the `i`-th independent draw modulo the pool size - sampling
with replacement, so the same competitor can appear several times. -/
theorem pickPlayersForRound_roster {α : Type} (competitors : List α) (rand : Nat → Nat)
    (h : competitors ≠ []) :
    ∃ ps, pickPlayersForRound competitors rand = some ps ∧
      ps.length = 5 ∧
      (∀ p, p ∈ ps → p ∈ competitors) ∧
      (∀ i, i < 5 → ps[i]? = competitors[rand i % competitors.length]?) := by
  refine ⟨_, pickPlayersForRound_ne_nil competitors rand h, by simp, ?_, ?_⟩
  · intro p hp
    simp only [List.mem_map] at hp
    obtain ⟨x, _, rfl⟩ := hp
    exact List.get_mem _ _ _
  · intro i hi
    rw [List.getElem?_map, List.getElem?_range hi]
    simp [List.getElem?_eq_getElem (Nat.mod_lt _ (List.length_pos.mpr h))]

/-- C5 witness: the pool `[10, 20]` with the identity random stream. -/
theorem pickPlayersForRound_roster_witness :
    ([10, 20] ≠ ([] : List Nat)) ∧
    (∃ ps, pickPlayersForRound [10, 20] (fun i => i) = some ps ∧
      ps.length = 5 ∧
      (∀ p, p ∈ ps → p ∈ [10, 20]) ∧
      (∀ i, i < 5 → ps[i]? = [10, 20][i % 2]?)) :=
  ⟨by decide, pickPlayersForRound_roster [10, 20] (fun i => i) (by decide)⟩

/-- C7: with an empty agent pool, the first loop iteration of
`CompetitionRunner.main` fails inside `pickPlayersForRound`
(`random.choice` raises `IndexError`, which nothing in the program
catches) before `play` is reached: the run ends with zero games
constructed, the statistics untouched, and hence no agent callback of any
game invoked. -/
theorem emptyPool_fails_before_any_game {α : Type} (rand : Nat → Nat → Nat)
    (gameRound : List α → Stats → Stats) (rounds : Nat) (s : Stats) (h : 1 ≤ rounds) :
    mainLoop ([] : List α) rand gameRound none rounds 0 s = ⟨.indexError, s, 0⟩ := by
  cases rounds with
  | zero => omega
  | succ n => rfl

/-- C7 witness: a three-round tournament over an empty pool. -/
theorem emptyPool_fails_before_any_game_witness :
    1 ≤ 3 ∧
    mainLoop ([] : List Nat) (fun _ _ => 0) (fun _ s => s) none 3 0 Stats.init
      = ⟨.indexError, Stats.init, 0⟩ :=
  ⟨by decide, emptyPool_fails_before_any_game (fun _ _ => 0) (fun _ s => s) 3 Stats.init (by decide)⟩

/-- An interrupt after `k` further games stops the loop with exactly the
statistics a clean `k`-game run would have accumulated. -/
theorem mainLoop_interrupt {α : Type} (competitors : List α) (rand : Nat → Nat → Nat)
    (gameRound : List α → Stats → Stats) :
    ∀ (k rounds g : Nat) (s : Stats), k < rounds → competitors ≠ [] →
      mainLoop competitors rand gameRound (some k) rounds g s =
        ⟨.interrupted, (mainLoop competitors rand gameRound none k g s).stats, g + k⟩ := by
  intro k
  induction k with
  | zero =>
    intro rounds g s hk _
    cases rounds with
    | zero => omega
    | succ n => simp [mainLoop]
  | succ k ih =>
    intro rounds g s hk hc
    cases rounds with
    | zero => omega
    | succ n =>
      have hpick := pickPlayersForRound_ne_nil competitors (rand g) hc
      have hk' : k < n := by omega
      simp only [mainLoop, hpick]
      rw [ih n (g + 1) (gameRound _ s) hk' hc]
      have harith : g + 1 + k = g + (k + 1) := by omega
      rw [harith]

/-- C4: a user-requested early stop (`KeyboardInterrupt`/`SystemExit`
between games, here after `k` of the `rounds` games) is not an error: the
run ends in the `interrupted` outcome, the `except` clause swallows it,
and the `finally` clause still produces the report from exactly the
statistics the first `k` games accumulated. -/
theorem interrupted_run_reports_partial {α : Type} (competitors : List α)
    (rand : Nat → Nat → Nat) (gameRound : List α → Stats → Stats) (k rounds : Nat)
    (s : Stats) (hk : k < rounds) (hc : competitors ≠ []) :
    mainLoop competitors rand gameRound (some k) rounds 0 s =
      ⟨.interrupted, (mainLoop competitors rand gameRound none k 0 s).stats, k⟩ ∧
    finalReport (mainLoop competitors rand gameRound (some k) rounds 0 s) =
      (mainLoop competitors rand gameRound none k 0 s).stats := by
  have h := mainLoop_interrupt competitors rand gameRound k rounds 0 s hk hc
  rw [Nat.zero_add] at h
  exact ⟨h, by rw [h]; rfl⟩

/-- Pointwise effect of the win/loss fold on `spyWins`: one sample of
`int(not won)` per spy roster member carrying the name `n`. -/
theorem foldGame_spyWins (won : Bool) (bots : List Player) :
    ∀ (stats : Stats) (n : String),
      ((foldGame won stats bots) n).spyWins =
        ⟨(stats n).spyWins.total + (if won then 0 else bots.countP (fun b => b.spy && b.name == n)),
         (stats n).spyWins.samples + bots.countP (fun b => b.spy && b.name == n)⟩ := by
  induction bots with
  | nil =>
    intro stats n
    cases won <;> simp [foldGame]
  | cons b bots ih =>
    intro stats n
    have h1 : foldGame won stats (b :: bots) = foldGame won (foldGameBot won stats b) bots := rfl
    rw [h1, ih]
    by_cases hn : b.name = n
    · by_cases hs : b.spy
      · cases won <;>
          simp [foldGameBot, updateStat, hn, hs, Variable.sample, List.countP_cons] <;> omega
      · cases won <;>
          simp [foldGameBot, updateStat, hn, hs, List.countP_cons]
    · have hne : ¬(n = b.name) := fun hh => hn hh.symm
      cases won <;> by_cases hs : b.spy <;>
        simp [foldGameBot, updateStat, hne, hn, hs, List.countP_cons]

/-- Pointwise effect of the win/loss fold on `resWins`: one sample of
`int(won)` per resistance roster member carrying the name `n`. -/
theorem foldGame_resWins (won : Bool) (bots : List Player) :
    ∀ (stats : Stats) (n : String),
      ((foldGame won stats bots) n).resWins =
        ⟨(stats n).resWins.total + (if won then bots.countP (fun b => !b.spy && b.name == n) else 0),
         (stats n).resWins.samples + bots.countP (fun b => !b.spy && b.name == n)⟩ := by
  induction bots with
  | nil =>
    intro stats n
    cases won <;> simp [foldGame]
  | cons b bots ih =>
    intro stats n
    have h1 : foldGame won stats (b :: bots) = foldGame won (foldGameBot won stats b) bots := rfl
    rw [h1, ih]
    by_cases hn : b.name = n
    · by_cases hs : b.spy
      · cases won <;>
          simp [foldGameBot, updateStat, hn, hs, List.countP_cons]
      · cases won <;>
          simp [foldGameBot, updateStat, hn, hs, Variable.sample, List.countP_cons] <;> omega
    · have hne : ¬(n = b.name) := fun hh => hn hh.symm
      cases won <;> by_cases hs : b.spy <;>
        simp [foldGameBot, updateStat, hne, hn, hs, List.countP_cons]

/-- One roster member's win/loss fold leaves the five non-win accumulators
of every name unchanged. -/
theorem foldGameBot_untouched (won : Bool) (stats : Stats) (b : Player) (n : String) :
    ((foldGameBot won stats b) n).votesRes = (stats n).votesRes ∧
    ((foldGameBot won stats b) n).votesSpy = (stats n).votesSpy ∧
    ((foldGameBot won stats b) n).spyVoted = (stats n).spyVoted ∧
    ((foldGameBot won stats b) n).spySelected = (stats n).spySelected ∧
    ((foldGameBot won stats b) n).selections = (stats n).selections := by
  by_cases hn : n = b.name <;> by_cases hs : b.spy <;>
    simp [foldGameBot, updateStat, hn, hs]

/-- The whole win/loss fold leaves the five non-win accumulators of every
name unchanged. -/
theorem foldGame_untouched (won : Bool) (bots : List Player) :
    ∀ (stats : Stats) (n : String),
      ((foldGame won stats bots) n).votesRes = (stats n).votesRes ∧
      ((foldGame won stats bots) n).votesSpy = (stats n).votesSpy ∧
      ((foldGame won stats bots) n).spyVoted = (stats n).spyVoted ∧
      ((foldGame won stats bots) n).spySelected = (stats n).spySelected ∧
      ((foldGame won stats bots) n).selections = (stats n).selections := by
  induction bots with
  | nil => intro stats n; exact ⟨rfl, rfl, rfl, rfl, rfl⟩
  | cons b bots ih =>
    intro stats n
    have h1 : foldGame won stats (b :: bots) = foldGame won (foldGameBot won stats b) bots := rfl
    rw [h1]
    obtain ⟨i1, i2, i3, i4, i5⟩ := ih (foldGameBot won stats b) n
    obtain ⟨j1, j2, j3, j4, j5⟩ := foldGameBot_untouched won stats b n
    exact ⟨i1.trans j1, i2.trans j2, i3.trans j3, i4.trans j4, i5.trans j5⟩

/-- C1: the end-of-game fold gives each roster member exactly one win/loss
sample keyed by its agent name: per spy named `n` one `spyWins` sample of
1 iff the Resistance did not win, per resistance member named `n` one
`resWins` sample of 1 iff the Resistance won, and no other estimator of
any name is touched by the fold. -/
theorem main_win_loss_fold (won : Bool) (stats : Stats) (bots : List Player) (n : String) :
    ((foldGame won stats bots) n).spyWins =
      ⟨(stats n).spyWins.total + (if won then 0 else bots.countP (fun b => b.spy && b.name == n)),
       (stats n).spyWins.samples + bots.countP (fun b => b.spy && b.name == n)⟩ ∧
    ((foldGame won stats bots) n).resWins =
      ⟨(stats n).resWins.total + (if won then bots.countP (fun b => !b.spy && b.name == n) else 0),
       (stats n).resWins.samples + bots.countP (fun b => !b.spy && b.name == n)⟩ ∧
    ((foldGame won stats bots) n).votesRes = (stats n).votesRes ∧
    ((foldGame won stats bots) n).votesSpy = (stats n).votesSpy ∧
    ((foldGame won stats bots) n).spyVoted = (stats n).spyVoted ∧
    ((foldGame won stats bots) n).spySelected = (stats n).spySelected ∧
    ((foldGame won stats bots) n).selections = (stats n).selections := by
  obtain ⟨u1, u2, u3, u4, u5⟩ := foldGame_untouched won bots stats n
  exact ⟨foldGame_spyWins won bots stats n, foldGame_resWins won bots stats n, u1, u2, u3, u4, u5⟩

/-- The `spyVoted` loop leaves the other six accumulators of every name
unchanged. -/
theorem spyVotedFold_untouched (vote : Bool) (spies : List Player) :
    ∀ (stats : Stats) (n : String),
      ((spyVotedFold vote spies stats) n).resWins = (stats n).resWins ∧
      ((spyVotedFold vote spies stats) n).spyWins = (stats n).spyWins ∧
      ((spyVotedFold vote spies stats) n).votesRes = (stats n).votesRes ∧
      ((spyVotedFold vote spies stats) n).votesSpy = (stats n).votesSpy ∧
      ((spyVotedFold vote spies stats) n).spySelected = (stats n).spySelected ∧
      ((spyVotedFold vote spies stats) n).selections = (stats n).selections := by
  induction spies with
  | nil => intro stats n; exact ⟨rfl, rfl, rfl, rfl, rfl, rfl⟩
  | cons sp spies ih =>
    intro stats n
    have h1 : spyVotedFold vote (sp :: spies) stats =
        spyVotedFold vote spies
          (updateStat stats sp.name
            (fun s => { s with spyVoted := s.spyVoted.sample (if vote then 1 else 0) })) := rfl
    rw [h1]
    obtain ⟨i1, i2, i3, i4, i5, i6⟩ := ih (updateStat stats sp.name
      (fun s => { s with spyVoted := s.spyVoted.sample (if vote then 1 else 0) })) n
    refine ⟨i1.trans ?_, i2.trans ?_, i3.trans ?_, i4.trans ?_, i5.trans ?_, i6.trans ?_⟩ <;>
      by_cases hn : n = sp.name <;> simp [updateStat, hn]

/-- Pointwise effect of the `spyVoted` loop: one sample of `int(vote)` per
spy on the team carrying the name `n`. -/
theorem spyVotedFold_spyVoted (vote : Bool) (spies : List Player) :
    ∀ (stats : Stats) (n : String),
      ((spyVotedFold vote spies stats) n).spyVoted =
        ⟨(stats n).spyVoted.total + (if vote then spies.countP (fun b => b.name == n) else 0),
         (stats n).spyVoted.samples + spies.countP (fun b => b.name == n)⟩ := by
  induction spies with
  | nil => intro stats n; cases vote <;> simp [spyVotedFold]
  | cons sp spies ih =>
    intro stats n
    have h1 : spyVotedFold vote (sp :: spies) stats =
        spyVotedFold vote spies
          (updateStat stats sp.name
            (fun s => { s with spyVoted := s.spyVoted.sample (if vote then 1 else 0) })) := rfl
    rw [h1, ih]
    by_cases hn : sp.name = n
    · cases vote <;> simp [updateStat, hn, Variable.sample, List.countP_cons] <;> omega
    · have hne : ¬(n = sp.name) := fun hh => hn hh.symm
      cases vote <;> simp [updateStat, hne, hn, List.countP_cons]

/-- C2: `onPlayerVoted` ignores spy voters entirely; for a resistance
voter it folds exactly one vote-correctness sample - into `votesRes` with
value `int(vote)` when the proposed team has no spy, into `votesSpy` with
value `int(not vote)` when it has at least one - and gives every spy on
the team one `spyVoted` sample equal to `int(vote)`; nothing else in the
table changes. -/
theorem onPlayerVoted_spec (stats : Stats) (player : Player) (vote : Bool) (leader : Player)
    (team : List Player) (n : String) :
    (player.spy = true → CompetitionRound.onPlayerVoted stats player vote leader team = stats) ∧
    (player.spy = false →
      ((team.filter (fun t => t.spy) = [] →
          ((CompetitionRound.onPlayerVoted stats player vote leader team) player.name).votesRes
            = (stats player.name).votesRes.sample (if vote then 1 else 0) ∧
          (n ≠ player.name →
            ((CompetitionRound.onPlayerVoted stats player vote leader team) n).votesRes
              = (stats n).votesRes) ∧
          ((CompetitionRound.onPlayerVoted stats player vote leader team) n).votesSpy
            = (stats n).votesSpy) ∧
       (team.filter (fun t => t.spy) ≠ [] →
          ((CompetitionRound.onPlayerVoted stats player vote leader team) player.name).votesSpy
            = (stats player.name).votesSpy.sample (if vote then 0 else 1) ∧
          (n ≠ player.name →
            ((CompetitionRound.onPlayerVoted stats player vote leader team) n).votesSpy
              = (stats n).votesSpy) ∧
          ((CompetitionRound.onPlayerVoted stats player vote leader team) n).votesRes
            = (stats n).votesRes) ∧
       ((CompetitionRound.onPlayerVoted stats player vote leader team) n).spyVoted =
         ⟨(stats n).spyVoted.total
            + (if vote then (team.filter (fun t => t.spy)).countP (fun b => b.name == n) else 0),
          (stats n).spyVoted.samples
            + (team.filter (fun t => t.spy)).countP (fun b => b.name == n)⟩ ∧
       ((CompetitionRound.onPlayerVoted stats player vote leader team) n).resWins
         = (stats n).resWins ∧
       ((CompetitionRound.onPlayerVoted stats player vote leader team) n).spyWins
         = (stats n).spyWins ∧
       ((CompetitionRound.onPlayerVoted stats player vote leader team) n).spySelected
         = (stats n).spySelected ∧
       ((CompetitionRound.onPlayerVoted stats player vote leader team) n).selections
         = (stats n).selections)) := by
  cases hps : player.spy
  case true =>
    constructor
    · intro _
      simp [CompetitionRound.onPlayerVoted, hps]
    · intro h
      simp [hps] at h
  case false =>
    refine ⟨fun h => by simp [hps] at h, fun _ => ?_⟩
    by_cases hempty : team.filter (fun t => t.spy) = []
    · have hred : CompetitionRound.onPlayerVoted stats player vote leader team =
          updateStat stats player.name
            (fun s => { s with votesRes := s.votesRes.sample (if vote then 1 else 0) }) := by
        simp [CompetitionRound.onPlayerVoted, hps, hempty, spyVotedFold]
      rw [hred, hempty]
      refine ⟨fun _ => ⟨by simp [updateStat], fun hne => by simp [updateStat, hne], ?_⟩,
        fun hne => absurd rfl hne, ?_, ?_, ?_, ?_, ?_⟩ <;>
        by_cases hn : n = player.name <;>
        cases vote <;> simp [updateStat, hn]
    · have hred : CompetitionRound.onPlayerVoted stats player vote leader team =
          spyVotedFold vote (team.filter (fun t => t.spy))
            (updateStat stats player.name
              (fun s => { s with votesSpy := s.votesSpy.sample (if vote then 0 else 1) })) := by
        have hne : (team.filter (fun t => t.spy)).isEmpty = false := by
          cases hl : team.filter (fun t => t.spy) with
          | nil => exact absurd hl hempty
          | cons a l => rfl
        simp [CompetitionRound.onPlayerVoted, hps, hne]
      obtain ⟨u1, u2, u3, u4, u5, u6⟩ := spyVotedFold_untouched vote
        (team.filter (fun t => t.spy))
        (updateStat stats player.name
          (fun s => { s with votesSpy := s.votesSpy.sample (if vote then 0 else 1) })) n
      obtain ⟨w1, w2, w3, w4, w5, w6⟩ := spyVotedFold_untouched vote
        (team.filter (fun t => t.spy))
        (updateStat stats player.name
          (fun s => { s with votesSpy := s.votesSpy.sample (if vote then 0 else 1) })) player.name
      have hsv := spyVotedFold_spyVoted vote (team.filter (fun t => t.spy))
        (updateStat stats player.name
          (fun s => { s with votesSpy := s.votesSpy.sample (if vote then 0 else 1) })) n
      rw [hred]
      refine ⟨fun h => absurd h hempty,
        fun _ => ⟨w4.trans (by simp [updateStat]), fun hne => u4.trans (by simp [updateStat, hne]), ?_⟩,
        ?_, ?_, ?_, ?_, ?_⟩
      · exact u3.trans (by by_cases hn : n = player.name <;> simp [updateStat, hn])
      · rw [hsv]
        by_cases hn : n = player.name <;> cases vote <;> simp [updateStat, hn]
      · exact u1.trans (by by_cases hn : n = player.name <;> simp [updateStat, hn])
      · exact u2.trans (by by_cases hn : n = player.name <;> simp [updateStat, hn])
      · exact u5.trans (by by_cases hn : n = player.name <;> simp [updateStat, hn])
      · exact u6.trans (by by_cases hn : n = player.name <;> simp [updateStat, hn])

/-- Accumulator growth: both components may only grow. -/
def Variable.le (v w : Variable) : Prop :=
  v.total ≤ w.total ∧ v.samples ≤ w.samples

theorem vle_refl (v : Variable) : v.le v :=
  ⟨Nat.le_refl _, Nat.le_refl _⟩

theorem vle_trans {a b c : Variable} (h1 : a.le b) (h2 : b.le c) : a.le c :=
  ⟨Nat.le_trans h1.1 h2.1, Nat.le_trans h1.2 h2.2⟩

theorem Variable.le_sample (v : Variable) (x : Nat) : v.le (v.sample x) :=
  ⟨Nat.le_add_right _ _, Nat.le_add_right _ _⟩

/-- Growth of a whole per-name record, accumulator by accumulator. -/
def CompetitionStatistics.le (s t : CompetitionStatistics) : Prop :=
  s.resWins.le t.resWins ∧ s.spyWins.le t.spyWins ∧ s.votesRes.le t.votesRes ∧
  s.votesSpy.le t.votesSpy ∧ s.spyVoted.le t.spyVoted ∧ s.spySelected.le t.spySelected ∧
  s.selections.le t.selections

theorem csle_refl (s : CompetitionStatistics) : s.le s :=
  ⟨vle_refl _, vle_refl _, vle_refl _, vle_refl _,
   vle_refl _, vle_refl _, vle_refl _⟩

theorem csle_trans {a b c : CompetitionStatistics}
    (h1 : a.le b) (h2 : b.le c) : a.le c :=
  ⟨vle_trans h1.1 h2.1, vle_trans h1.2.1 h2.2.1,
   vle_trans h1.2.2.1 h2.2.2.1, vle_trans h1.2.2.2.1 h2.2.2.2.1,
   vle_trans h1.2.2.2.2.1 h2.2.2.2.2.1,
   vle_trans h1.2.2.2.2.2.1 h2.2.2.2.2.2.1,
   vle_trans h1.2.2.2.2.2.2 h2.2.2.2.2.2.2⟩

/-- Growth of the whole table: every name's record grows. -/
def Stats.le (a b : Stats) : Prop :=
  ∀ n, (a n).le (b n)

theorem sle_refl (a : Stats) : Stats.le a a :=
  fun _ => csle_refl _

theorem sle_trans {a b c : Stats} (h1 : Stats.le a b) (h2 : Stats.le b c) :
    Stats.le a c :=
  fun n => csle_trans (h1 n) (h2 n)

theorem Stats.le_updateStat (stats : Stats) (m : String)
    (f : CompetitionStatistics → CompetitionStatistics)
    (hf : ∀ s, CompetitionStatistics.le s (f s)) :
    Stats.le stats (updateStat stats m f) := by
  intro n
  unfold updateStat
  by_cases h : n = m
  · simp only [h, if_pos rfl]
    exact hf _
  · simp only [if_neg h]
    exact csle_refl _

theorem Stats.le_foldl {β : Type} (f : Stats → β → Stats)
    (hf : ∀ st b, Stats.le st (f st b)) :
    ∀ (l : List β) (st : Stats), Stats.le st (l.foldl f st) := by
  intro l
  induction l with
  | nil => intro st; exact sle_refl _
  | cons b l ih => intro st; exact sle_trans (hf st b) (ih (f st b))

theorem le_upd_resWins (x : Nat) (s : CompetitionStatistics) :
    s.le { s with resWins := s.resWins.sample x } :=
  ⟨Variable.le_sample _ _, vle_refl _, vle_refl _, vle_refl _,
   vle_refl _, vle_refl _, vle_refl _⟩

theorem le_upd_spyWins (x : Nat) (s : CompetitionStatistics) :
    s.le { s with spyWins := s.spyWins.sample x } :=
  ⟨vle_refl _, Variable.le_sample _ _, vle_refl _, vle_refl _,
   vle_refl _, vle_refl _, vle_refl _⟩

theorem le_upd_votesRes (x : Nat) (s : CompetitionStatistics) :
    s.le { s with votesRes := s.votesRes.sample x } :=
  ⟨vle_refl _, vle_refl _, Variable.le_sample _ _, vle_refl _,
   vle_refl _, vle_refl _, vle_refl _⟩

theorem le_upd_votesSpy (x : Nat) (s : CompetitionStatistics) :
    s.le { s with votesSpy := s.votesSpy.sample x } :=
  ⟨vle_refl _, vle_refl _, vle_refl _, Variable.le_sample _ _,
   vle_refl _, vle_refl _, vle_refl _⟩

theorem le_upd_spyVoted (x : Nat) (s : CompetitionStatistics) :
    s.le { s with spyVoted := s.spyVoted.sample x } :=
  ⟨vle_refl _, vle_refl _, vle_refl _, vle_refl _,
   Variable.le_sample _ _, vle_refl _, vle_refl _⟩

theorem le_upd_spySelected (x : Nat) (s : CompetitionStatistics) :
    s.le { s with spySelected := s.spySelected.sample x } :=
  ⟨vle_refl _, vle_refl _, vle_refl _, vle_refl _,
   vle_refl _, Variable.le_sample _ _, vle_refl _⟩

theorem le_upd_selections (x : Nat) (s : CompetitionStatistics) :
    s.le { s with selections := s.selections.sample x } :=
  ⟨vle_refl _, vle_refl _, vle_refl _, vle_refl _,
   vle_refl _, vle_refl _, Variable.le_sample _ _⟩

theorem le_spyVotedFold (vote : Bool) (spies : List Player) (stats : Stats) :
    Stats.le stats (spyVotedFold vote spies stats) := by
  unfold spyVotedFold
  exact Stats.le_foldl _ (fun st sp => Stats.le_updateStat st sp.name _ (le_upd_spyVoted _))
    spies stats

theorem le_onPlayerVoted (stats : Stats) (p : Player) (v : Bool) (l : Player)
    (t : List Player) :
    Stats.le stats (CompetitionRound.onPlayerVoted stats p v l t) := by
  unfold CompetitionRound.onPlayerVoted
  by_cases hp : p.spy
  · simp only [hp, if_pos rfl]
    exact sle_refl _
  · simp only [hp, if_neg, Bool.false_eq_true, not_false_eq_true]
    by_cases he : (t.filter (fun q => q.spy)).isEmpty
    · simp only [he, if_pos rfl]
      exact sle_trans
        (Stats.le_updateStat stats p.name _ (le_upd_votesRes _))
        (le_spyVotedFold v _ _)
    · simp only [he, if_neg, Bool.not_eq_true]
      exact sle_trans
        (Stats.le_updateStat stats p.name _ (le_upd_votesSpy _))
        (le_spyVotedFold v _ _)

theorem le_onPlayerSelected (stats : Stats) (p : Player) (t : List Player)
    (bots : List Player) :
    Stats.le stats (CompetitionRound.onPlayerSelected stats p t bots) := by
  unfold CompetitionRound.onPlayerSelected
  by_cases hp : p.spy
  · simp only [hp, if_pos rfl]
    exact sle_refl _
  · simp only [hp, if_neg, Bool.false_eq_true, not_false_eq_true]
    refine sle_trans (Stats.le_updateStat stats p.name _ (le_upd_selections _))
      (Stats.le_foldl _ (fun st b => ?_) bots _)
    by_cases hb : b.spy
    · simp only [hb, if_pos rfl]
      exact Stats.le_updateStat st b.name _ (le_upd_spySelected _)
    · simp only [hb, if_neg, Bool.false_eq_true, not_false_eq_true]
      exact sle_refl _

theorem le_foldGame (won : Bool) (stats : Stats) (bots : List Player) :
    Stats.le stats (foldGame won stats bots) := by
  refine Stats.le_foldl _ (fun st b => ?_) bots stats
  unfold foldGameBot
  refine Stats.le_updateStat st b.name _ (fun s => ?_)
  by_cases hb : b.spy
  · simp only [hb, if_pos rfl]
    exact le_upd_spyWins _ _
  · simp only [hb, if_neg, Bool.false_eq_true, not_false_eq_true]
    exact le_upd_resWins _ _

theorem le_apply (stats : Stats) (op : StatsOp) : Stats.le stats (StatsOp.apply stats op) := by
  cases op with
  | playerVoted p v l t => exact le_onPlayerVoted stats p v l t
  | playerSelected p t bs => exact le_onPlayerSelected stats p t bs
  | gameFinished w bs => exact le_foldGame w stats bs

/-- C6: every table mutation of the tournament folds one sample at a time
(count up by one, sum up by the sample's value), and across any sequence
of vote, selection and end-of-game events, every accumulator of every
agent name is non-decreasing in both sum and count - entries are never
replaced, removed or reset. -/
theorem statistics_monotone (ops : List StatsOp) (stats : Stats) :
    (∀ (v : Variable) (x : Nat),
      (v.sample x).samples = v.samples + 1 ∧ (v.sample x).total = v.total + x) ∧
    Stats.le stats (applyOps stats ops) :=
  ⟨fun _ _ => ⟨rfl, rfl⟩, Stats.le_foldl StatsOp.apply le_apply ops stats⟩

/-- Stable insertion inserts one element: the result is a permutation of
the element consed on. -/
theorem insertSorted_perm {α : Type} (le : α → α → Bool) (a : α) :
    ∀ l : List α, List.Perm (insertSorted le a l) (a :: l) := by
  intro l
  induction l with
  | nil => exact List.Perm.refl _
  | cons b l ih =>
    unfold insertSorted
    by_cases h : le a b
    · rw [if_pos h]
    · rw [if_neg h]
      exact (ih.cons b).trans (List.Perm.swap a b l)

/-- `sorted` returns a permutation of its input. -/
theorem pySorted_perm {α : Type} (le : α → α → Bool) :
    ∀ l : List α, List.Perm (pySorted le l) l := by
  intro l
  induction l with
  | nil => exact List.Perm.refl _
  | cons a l ih => exact (insertSorted_perm le a (pySorted le l)).trans (ih.cons a)

/-- Writing `a` into position `i` of `l` puts `a` into the list. -/
theorem mem_set_self {α : Type} (l : List α) (i : Nat) (a : α) (h : i < l.length) :
    a ∈ l.set i a := by
  have h2 : i < (l.set i a).length := by rw [List.length_set]; exact h
  have hm := List.getElem_mem h2
  rw [List.getElem_set_self h2] at hm
  exact hm

/-- Writing an element not yet in the list into one position keeps the
list duplicate-free. -/
theorem nodup_set_of_not_mem {α : Type} :
    ∀ (l : List α) (i : Nat) (a : α), a ∉ l → l.Nodup → (l.set i a).Nodup := by
  intro l
  induction l with
  | nil => intro i a _ _; simp
  | cons b l ih =>
    intro i a ha hl
    cases i with
    | zero =>
      rw [List.set_cons_zero]
      rw [List.nodup_cons] at hl ⊢
      exact ⟨fun hm => ha (List.mem_cons_of_mem b hm), hl.2⟩
    | succ i =>
      rw [List.set_cons_succ]
      rw [List.nodup_cons] at hl ⊢
      constructor
      · intro hm
        rcases List.mem_or_eq_of_mem_set hm with h | h
        · exact hl.1 h
        · apply ha
          rw [← h]
          exact List.mem_cons_self b l
      · exact ih i a (fun hm => ha (List.mem_cons_of_mem b hm)) hl.2

/-- The resistance-side team core: sort, drop `self`, take `k` - the
result has `k` distinct members of the sorted roster, none of them
`self`. -/
theorem trust_take_spec (srt : List Player) (sf : Player) (k : Nat)
    (hnd : srt.Nodup) (hlen : srt.length = 5) (hmem : sf ∈ srt) (hk : k ≤ 4) :
    ((srt.erase sf).take k).length = k ∧ ((srt.erase sf).take k).Nodup ∧
    (∀ p, p ∈ (srt.erase sf).take k → p ∈ srt) ∧ sf ∉ (srt.erase sf).take k := by
  have helen : (srt.erase sf).length = 4 := by
    rw [List.length_erase_of_mem hmem, hlen]
  have hend : (srt.erase sf).Nodup := hnd.erase sf
  have hnm : sf ∉ srt.erase sf := by
    intro hx
    exact ((hnd.mem_erase_iff).mp hx).1 rfl
  refine ⟨?_, ?_, ?_, ?_⟩
  · rw [List.length_take, helen]
    omega
  · exact (List.take_sublist k _).nodup hend
  · intro p hp
    exact List.erase_subset sf srt ((List.take_subset k _) hp)
  · intro hx
    exact hnm ((List.take_subset k _) hx)

/-- The spy-side team core: take `count` of the sorted roster and force
`self` into the last slot if absent - the result has `count` distinct
members, each from the sorted roster or equal to `self`, and contains
`self` whenever it was already there or was written in. -/
theorem spy_team_spec (srt : List Player) (sf : Player) (count : Nat)
    (hnd : srt.Nodup) (hlen : srt.length = 5) (h1 : 1 ≤ count) (h5 : count ≤ 5) :
    (if sf ∈ srt.take count then srt.take count
     else (srt.take count).set (count - 1) sf).length = count ∧
    (if sf ∈ srt.take count then srt.take count
     else (srt.take count).set (count - 1) sf).Nodup ∧
    (∀ p, p ∈ (if sf ∈ srt.take count then srt.take count
        else (srt.take count).set (count - 1) sf) → p ∈ srt ∨ p = sf) ∧
    sf ∈ (if sf ∈ srt.take count then srt.take count
        else (srt.take count).set (count - 1) sf) := by
  have hlt : (srt.take count).length = count := by
    rw [List.length_take, hlen]
    omega
  have htnd : (srt.take count).Nodup := (List.take_sublist _ _).nodup hnd
  by_cases hmem : sf ∈ srt.take count
  · rw [if_pos hmem]
    exact ⟨hlt, htnd, fun p hp => Or.inl ((List.take_subset _ _) hp), hmem⟩
  · rw [if_neg hmem]
    have hidx : count - 1 < (srt.take count).length := by omega
    refine ⟨by rw [List.length_set]; exact hlt,
      nodup_set_of_not_mem _ _ _ hmem htnd, ?_, mem_set_self _ _ _ hidx⟩
    intro p hp
    rcases List.mem_or_eq_of_mem_set hp with h | h
    · exact Or.inl ((List.take_subset _ _) h)
    · exact Or.inr h

/-- C8: on a roster of 5 distinct players containing Opeth itself and for
any required count between 1 and 5, `Opeth.select` returns a team of
exactly `count` players with no duplicates, all drawn from the roster and
always including Opeth itself - in the resistance branch and in the spy
branch alike. -/
theorem select_spec (o : Opeth) (players : List Player) (count : Nat)
    (hnd : players.Nodup) (hlen : players.length = 5) (hmem : o.self ∈ players)
    (h1 : 1 ≤ count) (h5 : count ≤ 5) :
    (o.select players count).length = count ∧
    (o.select players count).Nodup ∧
    (∀ p, p ∈ o.select players count → p ∈ players) ∧
    o.self ∈ o.select players count := by
  unfold Opeth.select
  cases hsv : o.self.spy
  case false =>
    rw [if_pos (by simp [hsv])]
    unfold Opeth.getPlayersITrust
    have hperm := pySorted_perm
      (fun a b => decide (Guess.get o.my_guess b ≤ Guess.get o.my_guess a)) players
    obtain ⟨t1, t2, t3, t4⟩ := trust_take_spec
      (pySorted (fun a b => decide (Guess.get o.my_guess b ≤ Guess.get o.my_guess a)) players)
      o.self (count - 1) (hperm.nodup_iff.mpr hnd) (hperm.length_eq.trans hlen)
      (hperm.mem_iff.mpr hmem) (by omega)
    refine ⟨?_, ?_, ?_, ?_⟩
    · rw [List.length_append, t1]
      simp
      omega
    · refine List.Nodup.append t2 (List.nodup_singleton _) ?_
      intro p hp hq
      rw [List.mem_singleton] at hq
      exact t4 (hq ▸ hp)
    · intro p hp
      rcases List.mem_append.mp hp with h | h
      · exact hperm.subset (t3 p h)
      · rw [List.mem_singleton] at h
        rw [h]
        exact hmem
    · exact List.mem_append_right _ (List.mem_singleton_self _)
  case true =>
    rw [if_neg (by simp [hsv])]
    simp only [Opeth.getPlayersTheyDontTrust]
    have hperm := pySorted_perm
      (fun a b => decide (Guess.get o.their_guess a ≤ Guess.get o.their_guess b)) players
    obtain ⟨s1, s2, s3, s4⟩ := spy_team_spec
      (pySorted (fun a b => decide (Guess.get o.their_guess a ≤ Guess.get o.their_guess b)) players)
      o.self count (hperm.nodup_iff.mpr hnd) (hperm.length_eq.trans hlen) h1 h5
    refine ⟨s1, s2, ?_, s4⟩
    intro p hp
    rcases s3 p hp with h | h
    · exact hperm.subset h
    · rw [h]
      exact hmem

/-- C8 witness: a resistance-role Opeth on a concrete 5-player roster,
asked for a team of 3. -/
theorem select_spec_witness :
    ([⟨0, "a", false⟩, ⟨1, "b", false⟩, ⟨2, "c", true⟩, ⟨3, "d", true⟩,
        ⟨4, "e", false⟩] : List Player).Nodup ∧
    ([⟨0, "a", false⟩, ⟨1, "b", false⟩, ⟨2, "c", true⟩, ⟨3, "d", true⟩,
        ⟨4, "e", false⟩] : List Player).length = 5 ∧
    (⟨0, "a", false⟩ : Player) ∈
      ([⟨0, "a", false⟩, ⟨1, "b", false⟩, ⟨2, "c", true⟩, ⟨3, "d", true⟩,
        ⟨4, "e", false⟩] : List Player) ∧
    ((Opeth.fresh ⟨0, "a", false⟩).select
        [⟨0, "a", false⟩, ⟨1, "b", false⟩, ⟨2, "c", true⟩, ⟨3, "d", true⟩,
          ⟨4, "e", false⟩] 3).length = 3 ∧
    ((Opeth.fresh ⟨0, "a", false⟩).select
        [⟨0, "a", false⟩, ⟨1, "b", false⟩, ⟨2, "c", true⟩, ⟨3, "d", true⟩,
          ⟨4, "e", false⟩] 3).Nodup ∧
    (∀ p, p ∈ (Opeth.fresh ⟨0, "a", false⟩).select
        [⟨0, "a", false⟩, ⟨1, "b", false⟩, ⟨2, "c", true⟩, ⟨3, "d", true⟩,
          ⟨4, "e", false⟩] 3 →
      p ∈ ([⟨0, "a", false⟩, ⟨1, "b", false⟩, ⟨2, "c", true⟩, ⟨3, "d", true⟩,
        ⟨4, "e", false⟩] : List Player)) ∧
    (⟨0, "a", false⟩ : Player) ∈ (Opeth.fresh ⟨0, "a", false⟩).select
        [⟨0, "a", false⟩, ⟨1, "b", false⟩, ⟨2, "c", true⟩, ⟨3, "d", true⟩,
          ⟨4, "e", false⟩] 3 := by
  have h := select_spec (Opeth.fresh ⟨0, "a", false⟩)
    [⟨0, "a", false⟩, ⟨1, "b", false⟩, ⟨2, "c", true⟩, ⟨3, "d", true⟩, ⟨4, "e", false⟩] 3
    (by decide) (by decide) (by decide) (by decide) (by decide)
  exact ⟨by decide, by decide, by decide, h.1, h.2.1, h.2.2.1, h.2.2.2⟩

/-- Adding to the shared set never removes anything already in it. -/
theorem setAdd_mono (s : List Player) (p q : Player) (hp : p ∈ s) : p ∈ setAdd s q := by
  unfold setAdd
  by_cases h : q ∈ s
  · rw [if_pos h]
    exact hp
  · rw [if_neg h]
    exact List.mem_append_left _ hp

/-- A fold that only grows a property preserves it. -/
theorem foldl_pres {β γ : Type} (P : γ → Prop) (f : γ → β → γ)
    (hf : ∀ c b, P c → P (f c b)) :
    ∀ (l : List β) (c : γ), P c → P (l.foldl f c) := by
  intro l
  induction l with
  | nil => intro c hc; exact hc
  | cons b l ih => intro c hc; exact ih (f c b) (hf c b hc)

/-- `onMissionComplete` only ever adds to the class-level `spies_for_sure`
set: whatever was in it stays in it. -/
theorem onMissionComplete_spies_mono (cls : OpethClass) (o : Opeth) (team : List Player)
    (sab : Nat) (p : Player) (hp : p ∈ cls.spies_for_sure) :
    p ∈ (Opeth.onMissionComplete cls o team sab).1.spies_for_sure := by
  unfold Opeth.onMissionComplete
  simp only []
  set P : OpethClass × Opeth → Prop := fun acc => p ∈ acc.1.spies_for_sure with hP
  have hstep1 : ∀ (start : OpethClass × Opeth), P start →
      P (if team.length = sab then
          team.foldl
            (fun acc spy =>
              (⟨setAdd acc.1.spies_for_sure spy⟩,
               { acc.2 with
                 my_guess := acc.2.my_guess.add spy (-100)
                 their_guess := acc.2.their_guess.add spy (-100) }))
            start
        else start) := by
    intro start hstart
    by_cases h : team.length = sab
    · rw [if_pos h]
      exact foldl_pres P _ (fun c b hc => setAdd_mono _ p b hc) team start hstart
    · rw [if_neg h]
      exact hstart
  have hstep2 : ∀ (start : OpethClass × Opeth), P start →
      P (if ¬o.self.spy ∧ o.self ∈ team ∧ (sab : Int) = (team.length : Int) - 1 then
          team.foldl
            (fun acc spy =>
              if o.self ≠ spy then
                (⟨setAdd acc.1.spies_for_sure spy⟩,
                 { acc.2 with my_guess := acc.2.my_guess.add spy (-100) })
              else acc)
            start
        else start) := by
    intro start hstart
    by_cases h : ¬o.self.spy ∧ o.self ∈ team ∧ (sab : Int) = (team.length : Int) - 1
    · rw [if_pos h]
      refine foldl_pres P _ (fun c b hc => ?_) team start hstart
      by_cases hb : o.self ≠ b
      · rw [if_pos hb]
        exact setAdd_mono _ p b hc
      · rw [if_neg hb]
        exact hc
    · rw [if_neg h]
      exact hstart
  exact hstep2 _ (hstep1 (cls, o) hp)

/-- C9 (amended): `spy_spies`, `my_guess` and `their_guess` are overwritten
by every `onGameRevealed` with values computed from its arguments alone, so
those three carry nothing between games; but `onGameComplete` is a no-op
that discards nothing, and the class-level `spies_for_sure` set - which
`onGameRevealed` never touches and `onMissionComplete` only grows - is
shared, persistent scratch state. -/
theorem opeth_scratch_state (cls : OpethClass) (o o2 : Opeth) (players spies : List Player)
    (win : Bool) (endSpies : List Player) (team : List Player) (sab : Nat) (p : Player) :
    (o.onGameRevealed players spies).spy_spies = some spies ∧
    (o.onGameRevealed players spies).my_guess = players.zip (List.replicate 5 0) ∧
    (o.onGameRevealed players spies).their_guess = players.zip (List.replicate 5 0) ∧
    (o.self = o2.self → o.onGameRevealed players spies = o2.onGameRevealed players spies) ∧
    Opeth.onGameComplete cls o win endSpies = (cls, o) ∧
    (p ∈ cls.spies_for_sure →
      p ∈ (Opeth.onMissionComplete cls o team sab).1.spies_for_sure) := by
  refine ⟨rfl, rfl, rfl, ?_, rfl, onMissionComplete_spies_mono cls o team sab p⟩
  intro h
  unfold Opeth.onGameRevealed
  rw [h]

/-- The game-1 mission team of the leak scenario: two spies. -/
def leakTeam : List Player :=
  [⟨1, "b", true⟩, ⟨2, "c", true⟩]

/-- Game 1 of the leak scenario: a fresh Opeth instance is revealed a
5-player roster, then sees `leakTeam` fully sabotage a mission (2 of 2),
which adds both members to the class-level `spies_for_sure`. -/
def leakGameOne : OpethClass × Opeth :=
  Opeth.onMissionComplete OpethClass.init
    (Opeth.onGameRevealed (Opeth.fresh ⟨0, "a", false⟩)
      [⟨0, "a", false⟩, ⟨1, "b", true⟩, ⟨2, "c", true⟩, ⟨3, "d", false⟩, ⟨4, "e", false⟩] [])
    leakTeam 2

/-- Game 1 ends: `onGameComplete` runs (and, being `pass`, discards
nothing). -/
def leakAfterGameOne : OpethClass × Opeth :=
  Opeth.onGameComplete leakGameOne.1 leakGameOne.2 false leakTeam

/-- The roster of game 2: five players disjoint from game 1's. -/
def leakGameTwoPlayers : List Player :=
  [⟨5, "f", false⟩, ⟨6, "g", false⟩, ⟨7, "h", false⟩, ⟨8, "i", false⟩, ⟨9, "j", false⟩]

/-- Game 2 of the leak scenario: a different, fresh Opeth instance is
revealed the new roster and sees a clean mission (0 sabotages). -/
def leakGameTwo : OpethClass × Opeth :=
  Opeth.onMissionComplete leakAfterGameOne.1
    (Opeth.onGameRevealed (Opeth.fresh ⟨5, "f", false⟩) leakGameTwoPlayers [])
    [⟨5, "f", false⟩, ⟨6, "g", false⟩] 0

/-- C9 counterexample: inside game 2, played by a different Opeth instance
on a disjoint roster, the shared `spies_for_sure` set still holds exactly
game 1's two sabotaged players - it was neither re-initialized at
`onGameRevealed` nor discarded by `onGameComplete`, so scratch state flows
from one game to the next and is shared between distinct instances. -/
theorem opeth_scratch_leak :
    leakGameTwo.1.spies_for_sure = leakTeam ∧
    (∀ p, p ∈ leakTeam → p ∉ leakGameTwoPlayers) := by
  decide

/-- C4 witness: a five-round tournament over the pool `[1]` interrupted
after two games. -/
theorem interrupted_run_reports_partial_witness :
    2 < 5 ∧ ([1] ≠ ([] : List Nat)) ∧
    (mainLoop [1] (fun _ _ => 0) (fun _ s => s) (some 2) 5 0 Stats.init =
        ⟨.interrupted, (mainLoop [1] (fun _ _ => 0) (fun _ s => s) none 2 0 Stats.init).stats, 2⟩ ∧
      finalReport (mainLoop [1] (fun _ _ => 0) (fun _ s => s) (some 2) 5 0 Stats.init) =
        (mainLoop [1] (fun _ _ => 0) (fun _ s => s) none 2 0 Stats.init).stats) :=
  ⟨by decide, by decide,
    interrupted_run_reports_partial [1] (fun _ _ => 0) (fun _ s => s) 2 5 Stats.init
      (by decide) (by decide)⟩
